import Mathlib

/-!
Shallow embedding of the `BatchInserter` component of `src/models.py`
(the batched, schema-normalizing bulk-insert helper), together with an
object-identity model used for the aliasing claims.

Rows are Python dicts from field name to a value that may itself be the
Python `None`; we model a value of the target scalar type `α` as
`Option α`, with `Option.none` standing for Python `None`, and a dict as
a key/value list looked up by first occurrence.
-/

/-- Model of a Python dict row: field name to possibly-null value. -/
abbrev Row (α : Type) : Type := List (String × Option α)

/-- Field names (keys) of a row, in order. -/
def keys {α : Type} (r : Row α) : List String := r.map Prod.fst

/-- Dictionary lookup: the value stored under key `k`, if the key is present. -/
def lookup {α : Type} (k : String) : Row α → Option (Option α)
  | [] => none
  | p :: r => if p.1 = k then some p.2 else lookup k r

/-- Model of the `field_names` set built by `_pad_data`: the union of the
key sets of all rows.  Python set iteration order is unspecified, so we fix
one concrete enumeration of the union. -/
def fieldNames {α : Type} (rows : List (Row α)) : List String :=
  ((rows.map keys).flatten).dedup

/-- Model of one padded row of `_pad_data`: `copy.copy(default_data)` updated
with the row, that is, every union field mapped to the row value when the
row has the field and to `None` when it lacks it. -/
def padRow {α : Type} (fields : List String) (r : Row α) : Row α :=
  fields.map (fun f => (f, match lookup f r with | some v => v | none => none))

/-- Model of `BatchInserter._pad_data`: replaces `rows[i]` by the default
data (all union fields mapped to `None`) updated with `rows[i]`. -/
def padData {α : Type} (rows : List (Row α)) : List (Row α) :=
  rows.map (padRow (fieldNames rows))

/-- The buffer contents that `flush` hands to the store: padded when the
`fill_missing_fields` flag was set, untouched otherwise. -/
def normBuffer {α : Type} (pad : Bool) (rows : List (Row α)) : List (Row α) :=
  if pad then padData rows else rows

/-- The transactional store behind `db_proxy`, as the inserter observes it:
the rows durably committed (in insertion order), and counters of the
transactions opened (`with db_proxy.atomic()`) and of the bulk-insert
statements executed (`insert_many(...).execute()`). -/
structure Store (α : Type) where
  committed : List (Row α)
  txns : Nat
  ops : Nat

/-- A store holding nothing, with zeroed operation counters. -/
def emptyStore {α : Type} : Store α :=
  { committed := [], txns := 0, ops := 0 }

/-- State of a `BatchInserter` instance: the buffered rows and the three
construction parameters (the peewee model handle is opaque to the core). -/
structure BatchInserter (α : Type) where
  rows : List (Row α)
  ModelType : String
  batch_size : Int
  pad_data : Bool

/-- Model of `BatchInserter.__init__`: stores the arguments and an empty
buffer; no validation of `batch_size` is performed. -/
def mkBatchInserter {α : Type} (ModelType : String) (batch_size : Int)
    (fill_missing_fields : Bool) : BatchInserter α :=
  { rows := [], ModelType := ModelType, batch_size := batch_size,
    pad_data := fill_missing_fields }

/-- Result of a `flush` call: the inserter and store afterwards, and the
error propagated to the caller, if any. -/
structure FlushResult (α ε : Type) where
  inserter : BatchInserter α
  store : Store α
  err : Option ε

/-- Model of `BatchInserter.flush` against a store whose bulk insert this
time either succeeds (`res = none`) or raises error `e` (`res = some e`).
`_pad_data` mutates `self.rows` in place before the transaction; then the
transaction is opened and the bulk insert executed; on failure the atomic
block rolls back completely (committed rows unchanged) and re-raises, and
`self.rows = []` is never reached, so the buffer keeps the padded rows. -/
def flushOp {α ε : Type} (b : BatchInserter α) (s : Store α) (res : Option ε) :
    FlushResult α ε :=
  let rows1 := normBuffer b.pad_data b.rows
  let s1 : Store α := { s with txns := s.txns + 1, ops := s.ops + 1 }
  match res with
  | none =>
      { inserter := { b with rows := [] },
        store := { s1 with committed := s1.committed ++ rows1 },
        err := none }
  | some e =>
      { inserter := { b with rows := rows1 }, store := s1, err := some e }

/-- Result of an `insert` call; `flushed` records whether the call attempted
a flush. -/
structure InsertResult (α ε : Type) where
  inserter : BatchInserter α
  store : Store α
  err : Option ε
  flushed : Bool

/-- Model of `BatchInserter.insert`: append the row, then flush when the
buffer length has reached `batch_size`; `res` is the store behavior should
a flush happen. -/
def insertOp {α ε : Type} (b : BatchInserter α) (s : Store α) (row : Row α)
    (res : Option ε) : InsertResult α ε :=
  let b1 : BatchInserter α := { b with rows := b.rows ++ [row] }
  if (b1.rows.length : Int) ≥ b.batch_size then
    let f := flushOp b1 s res
    { inserter := f.inserter, store := f.store, err := f.err, flushed := true }
  else
    { inserter := b1, store := s, err := none, flushed := false }

/-- Run a sequence of `insert` calls on which every triggered flush
succeeds at the store. -/
def runInsertsOk {α : Type} (b : BatchInserter α) (s : Store α) :
    List (Row α) → BatchInserter α × Store α
  | [] => (b, s)
  | row :: rest =>
      let r := @insertOp α Unit b s row none
      runInsertsOk r.inserter r.store rest

/-- Object-identity model used for the aliasing claim: dict objects live in
a heap (an address is an index into `heap`), the buffer holds the addresses
of the dict objects the caller handed to `insert`, and `_pad_data` builds a
fresh dict per row (`copy.copy(default_data)` then `update`) and repoints
the buffer slot at it, never writing into an existing dict. -/
structure Sys (α : Type) where
  heap : List (Row α)
  buffer : List Nat
  batch_size : Int
  pad_data : Bool

/-- Dereference a heap address (out-of-range addresses read as an empty
dict; the component never creates such an address). -/
def heapRow {α : Type} (st : Sys α) (a : Nat) : Row α :=
  (st.heap[a]?).getD []

/-- Heap-level model of `flush`: when padding is on, fresh padded dicts are
allocated at the end of the heap and the buffer slots are repointed at
them; on store success the buffer is cleared, on failure it is kept. -/
def flushSys {α ε : Type} (st : Sys α) (res : Option ε) : Sys α :=
  if st.pad_data then
    let rows := st.buffer.map (heapRow st)
    let padded := padData rows
    let heap1 := st.heap ++ padded
    let buffer1 := (List.range padded.length).map (fun i => st.heap.length + i)
    match res with
    | none => { st with heap := heap1, buffer := [] }
    | some _ => { st with heap := heap1, buffer := buffer1 }
  else
    match res with
    | none => { st with buffer := [] }
    | some _ => st

/-- External events of the heap-level model: an `insert` of the dict at a
given address, or an explicit `flush`; each carries the store's behavior
should a bulk insert be executed. -/
inductive Event (ε : Type) where
  | ins : Nat → Option ε → Event ε
  | flush : Option ε → Event ε

/-- Heap-level model of one call on the inserter. -/
def stepSys {α ε : Type} (st : Sys α) : Event ε → Sys α
  | Event.ins a res =>
      let st1 : Sys α := { st with buffer := st.buffer ++ [a] }
      if (st1.buffer.length : Int) ≥ st.batch_size then flushSys st1 res
      else st1
  | Event.flush res => flushSys st res

/-- Heap-level model of a whole session: a sequence of calls. -/
def runSys {α ε : Type} (st : Sys α) : List (Event ε) → Sys α
  | [] => st
  | ev :: rest => runSys (stepSys st ev) rest

/-! Helper lemmas about dict lookup and the padding transform. -/

theorem lookup_eq_none_iff {α : Type} (k : String) (r : Row α) :
    lookup k r = none ↔ k ∉ keys r := by
  induction r with
  | nil => simp [lookup, keys]
  | cons p r ih =>
      rcases p with ⟨pk, pv⟩
      by_cases h : pk = k
      · subst h
        simp [lookup, keys]
      · simp only [lookup, keys, List.map_cons, List.mem_cons] at ih ⊢
        simp only [h, if_false]
        rw [ih]
        constructor
        · intro hk hor
          rcases hor with rfl | hm
          · exact h rfl
          · exact hk hm
        · intro hk hm
          exact hk (Or.inr hm)

theorem lookup_isSome_iff {α : Type} (k : String) (r : Row α) :
    (∃ v, lookup k r = some v) ↔ k ∈ keys r := by
  constructor
  · rintro ⟨v, hv⟩
    by_contra hk
    rw [← lookup_eq_none_iff] at hk
    rw [hk] at hv
    exact Option.noConfusion hv
  · intro hk
    cases h : lookup k r with
    | none => exact absurd ((lookup_eq_none_iff k r).mp h) (fun hn => hn hk)
    | some v => exact ⟨v, rfl⟩

theorem keys_padRow {α : Type} (fields : List String) (r : Row α) :
    keys (padRow fields r) = fields := by
  induction fields with
  | nil => rfl
  | cons f fs ih =>
      simp only [keys, padRow, List.map_cons] at ih ⊢
      rw [ih]

theorem lookup_padRow_of_mem {α : Type} (fields : List String) (r : Row α)
    (k : String) (h : k ∈ fields) :
    lookup k (padRow fields r) =
      some (match lookup k r with | some v => v | none => none) := by
  induction fields with
  | nil => cases h
  | cons f fs ih =>
      by_cases hf : f = k
      · subst hf
        simp [padRow, lookup]
      · rcases List.mem_cons.mp h with h1 | h1
        · exact absurd h1.symm hf
        · simpa [padRow, lookup, hf] using ih h1

theorem lookup_padRow_of_not_mem {α : Type} (fields : List String) (r : Row α)
    (k : String) (h : k ∉ fields) :
    lookup k (padRow fields r) = none := by
  rw [lookup_eq_none_iff, keys_padRow]
  exact h

theorem mem_fieldNames_iff {α : Type} (rows : List (Row α)) (k : String) :
    k ∈ fieldNames rows ↔ ∃ r ∈ rows, k ∈ keys r := by
  simp only [fieldNames, List.mem_dedup, List.mem_flatten, List.mem_map]
  constructor
  · rintro ⟨l, ⟨r, hr, rfl⟩, hk⟩
    exact ⟨r, hr, hk⟩
  · rintro ⟨r, hr, hk⟩
    exact ⟨keys r, ⟨r, hr, rfl⟩, hk⟩

theorem padData_length {α : Type} (rows : List (Row α)) :
    (padData rows).length = rows.length := by
  simp [padData]

theorem padData_getElem {α : Type} (rows : List (Row α)) (i : Nat) :
    (padData rows)[i]? = (rows[i]?).map (padRow (fieldNames rows)) := by
  simp [padData]

theorem mem_of_getElem_eq_some {α : Type} {l : List α} {i : Nat} {a : α}
    (h : l[i]? = some a) : a ∈ l := by
  have := List.getElem?_eq_some.mp h
  rcases this with ⟨hlt, rfl⟩
  exact List.getElem_mem hlt

theorem lookup_padRow_preserve {α : Type} (rows : List (Row α)) (r : Row α)
    (hr : r ∈ rows) (k : String) (v : Option α) (h : lookup k r = some v) :
    lookup k (padRow (fieldNames rows) r) = some v := by
  have hk : k ∈ keys r := (lookup_isSome_iff k r).mp ⟨v, h⟩
  have hf : k ∈ fieldNames rows := (mem_fieldNames_iff rows k).mpr ⟨r, hr, hk⟩
  rw [lookup_padRow_of_mem _ _ _ hf, h]

theorem padData_getElem_preserve {α : Type} (rows : List (Row α)) (i : Nat)
    (r : Row α) (h : rows[i]? = some r) :
    ∃ r1, (padData rows)[i]? = some r1 ∧
      ∀ k v, lookup k r = some v → lookup k r1 = some v := by
  refine ⟨padRow (fieldNames rows) r, ?_, ?_⟩
  · rw [padData_getElem, h]
    rfl
  · intro k v hv
    exact lookup_padRow_preserve rows r (mem_of_getElem_eq_some h) k v hv

theorem normBuffer_length {α : Type} (pad : Bool) (rows : List (Row α)) :
    (normBuffer pad rows).length = rows.length := by
  cases pad <;> simp [normBuffer, padData_length]

theorem normBuffer_getElem_preserve {α : Type} (pad : Bool)
    (rows : List (Row α)) (i : Nat) (r : Row α) (h : rows[i]? = some r) :
    ∃ r1, (normBuffer pad rows)[i]? = some r1 ∧
      ∀ k v, lookup k r = some v → lookup k r1 = some v := by
  cases pad
  · exact ⟨r, by simpa [normBuffer] using h, fun k v hv => hv⟩
  · simpa [normBuffer] using padData_getElem_preserve rows i r h

/-- Claim C1: after `_pad_data`, every row's field-name set equals the union
of the field-name sets of all rows in the batch; every field absent from a
row's original form maps to `None` in that row, and every field present
keeps its original value unchanged.  (Row count is also preserved.) -/
theorem pad_data_union {α : Type} (rows : List (Row α)) :
    (padData rows).length = rows.length ∧
    ∀ (i : Nat) (r0 r1 : Row α), rows[i]? = some r0 → (padData rows)[i]? = some r1 →
      (∀ k, k ∈ keys r1 ↔ ∃ r ∈ rows, k ∈ keys r) ∧
      (∀ k, k ∉ keys r0 → (∃ r ∈ rows, k ∈ keys r) → lookup k r1 = some none) ∧
      (∀ k v, lookup k r0 = some v → lookup k r1 = some v) := by
  refine ⟨padData_length rows, ?_⟩
  intro i r0 r1 h0 h1
  rw [padData_getElem, h0] at h1
  simp only [Option.map_some'] at h1
  have h1 := (Option.some_injective _ h1).symm
  subst h1
  refine ⟨?_, ?_, ?_⟩
  · intro k
    rw [keys_padRow]
    exact mem_fieldNames_iff rows k
  · intro k hk hex
    have hf : k ∈ fieldNames rows := (mem_fieldNames_iff rows k).mpr hex
    rw [lookup_padRow_of_mem _ _ _ hf, (lookup_eq_none_iff k r0).mpr hk]
  · intro k v hv
    exact lookup_padRow_preserve rows r0 (mem_of_getElem_eq_some h0) k v hv

/-- Witness for C1 on the spec's own scenario: rows `{a:1}`, `{a:2,b:5}`,
`{a:3}`; the padded first row has field set `{a,b}`, keeps `a = 1` and maps
the absent `b` to null. -/
theorem pad_data_union_witness :
    lookup "b" [("b", (none : Option Int)), ("a", some 1)] = some none ∧
    lookup "a" [("b", (none : Option Int)), ("a", some 1)] = some (some 1) := by
  have h := pad_data_union
    [[("a", (some 1 : Option Int))], [("a", some 2), ("b", some 5)], [("a", some 3)]]
  have h0 := h.2 0 [("a", (some 1 : Option Int))]
    [("b", (none : Option Int)), ("a", some 1)] (by decide) (by decide)
  exact ⟨h0.2.1 "b" (by decide) ⟨[("a", some 2), ("b", some 5)], by decide, by decide⟩,
         h0.2.2 "a" (some 1) (by decide)⟩

/-- Claim C7: normalization is idempotent: on a batch whose rows already
share an identical field-name set (in particular the output of a previous
normalization), `_pad_data` leaves every row's contents unchanged (same
value under every key), and the row count unchanged. -/
theorem pad_data_idempotent {α : Type} (rows : List (Row α))
    (huni : ∀ r ∈ rows, ∀ r2 ∈ rows, ∀ k, k ∈ keys r ↔ k ∈ keys r2) :
    (padData rows).length = rows.length ∧
    ∀ (i : Nat) (r0 r1 : Row α), rows[i]? = some r0 →
      (padData rows)[i]? = some r1 →
      ∀ k, lookup k r1 = lookup k r0 := by
  refine ⟨padData_length rows, ?_⟩
  intro i r0 r1 h0 h1
  rw [padData_getElem, h0] at h1
  simp only [Option.map_some'] at h1
  have h1 := (Option.some_injective _ h1).symm
  subst h1
  intro k
  by_cases hf : k ∈ fieldNames rows
  · rcases (mem_fieldNames_iff rows k).mp hf with ⟨r2, hr2, hk2⟩
    have hk0 : k ∈ keys r0 :=
      (huni r2 hr2 r0 (mem_of_getElem_eq_some h0) k).mp hk2
    rcases (lookup_isSome_iff k r0).mpr hk0 with ⟨v, hv⟩
    rw [lookup_padRow_of_mem _ _ _ hf, hv]
  · have hk0 : k ∉ keys r0 := fun hk =>
      hf ((mem_fieldNames_iff rows k).mpr ⟨r0, mem_of_getElem_eq_some h0, hk⟩)
    rw [lookup_padRow_of_not_mem _ _ _ hf, (lookup_eq_none_iff k r0).mpr hk0]

/-- Witness for C7: a uniform two-row batch over field `a` is left
contents-unchanged by normalization. -/
theorem pad_data_idempotent_witness :
    (padData [[("a", (some 1 : Option Int))], [("a", some 2)]]).length =
      ([[("a", (some 1 : Option Int))], [("a", some 2)]] : List (Row Int)).length ∧
    ∀ (i : Nat) (r0 r1 : Row Int),
      ([[("a", (some 1 : Option Int))], [("a", some 2)]] : List (Row Int))[i]? = some r0 →
      (padData [[("a", (some 1 : Option Int))], [("a", some 2)]])[i]? = some r1 →
      ∀ k, lookup k r1 = lookup k r0 :=
  pad_data_idempotent _
    (by intro r hr r2 hr2 k; fin_cases hr <;> fin_cases hr2 <;> exact Iff.rfl)

/-- Accounting of a run of inserts on which every flush succeeds, started
from a buffer strictly below threshold: the final buffer length and the
number of bulk-insert operations executed. -/
theorem runInsertsOk_spec {α : Type} (B : Nat) (hB : 1 ≤ B) :
    ∀ (L : List (Row α)) (b : BatchInserter α) (s : Store α),
      b.batch_size = (B : Int) → b.rows.length < B →
      (runInsertsOk b s L).1.rows.length = (b.rows.length + L.length) % B ∧
      (runInsertsOk b s L).2.ops = s.ops + (b.rows.length + L.length) / B := by
  intro L
  induction L with
  | nil =>
      intro b s hbs hlen
      simp [runInsertsOk, Nat.mod_eq_of_lt hlen, Nat.div_eq_of_lt hlen]
  | cons row rest ih =>
      intro b s hbs hlen
      by_cases hc : b.rows.length + 1 = B
      · have hcond : ((b.rows ++ [row]).length : Int) ≥ b.batch_size := by
          rw [hbs]
          simp only [List.length_append, List.length_cons, List.length_nil]
          omega
        have hstep : @insertOp α Unit b s row none =
            { inserter := { b with rows := [] },
              store := { s with
                committed := s.committed ++ normBuffer b.pad_data (b.rows ++ [row]),
                txns := s.txns + 1, ops := s.ops + 1 },
              err := none, flushed := true } := by
          simp only [insertOp]
          rw [if_pos hcond]
          simp only [flushOp]
        have hrun : runInsertsOk b s (row :: rest) =
            runInsertsOk { b with rows := [] }
              { s with
                committed := s.committed ++ normBuffer b.pad_data (b.rows ++ [row]),
                txns := s.txns + 1, ops := s.ops + 1 } rest := by
          simp only [runInsertsOk]
          rw [hstep]
        rw [hrun]
        obtain ⟨ih1, ih2⟩ := ih { b with rows := [] } _ hbs (by simpa using hB)
        have hmod : (rest.length + B) % B = rest.length % B := Nat.add_mod_right _ _
        have hdiv : (rest.length + B) / B = rest.length / B + 1 := by
          simpa using Nat.add_div_right rest.length (by omega : 0 < B)
        constructor
        · rw [ih1, List.length_cons,
            (by omega : b.rows.length + (rest.length + 1) = rest.length + B), hmod]
          simp
        · rw [ih2, List.length_cons,
            (by omega : b.rows.length + (rest.length + 1) = rest.length + B), hdiv]
          simp only [List.length_nil, Nat.zero_add]
          rw [Nat.add_assoc, Nat.add_comm 1 _]
      · have hlt : b.rows.length + 1 < B := by omega
        have hcond : ¬ (((b.rows ++ [row]).length : Int) ≥ b.batch_size) := by
          rw [hbs]
          simp only [List.length_append, List.length_cons, List.length_nil]
          push_cast
          omega
        have hstep : @insertOp α Unit b s row none =
            { inserter := { b with rows := b.rows ++ [row] }, store := s,
              err := none, flushed := false } := by
          simp only [insertOp]
          rw [if_neg hcond]
        have hrun : runInsertsOk b s (row :: rest) =
            runInsertsOk { b with rows := b.rows ++ [row] } s rest := by
          simp only [runInsertsOk]
          rw [hstep]
        rw [hrun]
        obtain ⟨ih1, ih2⟩ := ih { b with rows := b.rows ++ [row] } s hbs
          (by simpa using hlt)
        constructor
        · rw [ih1]
          simp only [List.length_append, List.length_cons, List.length_nil]
          congr 1
          omega
        · rw [ih2]
          simp only [List.length_append, List.length_cons, List.length_nil]
          congr 2
          omega

/-- Claim C2: for every batch size `B ≥ 1` and every sequence of `N` inserts
on a freshly constructed inserter with all flushes succeeding, exactly
`N / B` automatic flushes (bulk-insert operations) are triggered, and the
buffer then holds exactly `N % B` rows. -/
theorem insert_auto_flush_count {α : Type} (B : Nat) (hB : 1 ≤ B)
    (M : String) (pad : Bool) (L : List (Row α)) :
    (runInsertsOk (@mkBatchInserter α M (B : Int) pad) emptyStore L).2.ops =
      L.length / B ∧
    (runInsertsOk (@mkBatchInserter α M (B : Int) pad) emptyStore L).1.rows.length =
      L.length % B := by
  obtain ⟨h1, h2⟩ := runInsertsOk_spec B hB L (@mkBatchInserter α M (B : Int) pad)
    emptyStore rfl (by simpa [mkBatchInserter] using hB)
  constructor
  · simpa [mkBatchInserter, emptyStore] using h2
  · simpa [mkBatchInserter, emptyStore] using h1

/-- Witness for C2: batch size 2, three inserts: one automatic flush and one
row left in the buffer. -/
theorem insert_auto_flush_count_witness :
    (runInsertsOk (@mkBatchInserter Int "T" ((2 : Nat) : Int) false) emptyStore
      [[("a", some 1)], [("a", some 2)], [("a", some 3)]]).2.ops = 1 ∧
    (runInsertsOk (@mkBatchInserter Int "T" ((2 : Nat) : Int) false) emptyStore
      [[("a", some 1)], [("a", some 2)], [("a", some 3)]]).1.rows.length = 1 := by
  have h := @insert_auto_flush_count Int 2 (by decide) "T" false
    [[("a", some 1)], [("a", some 2)], [("a", some 3)]]
  exact ⟨by rw [h.1]; decide, by rw [h.2]; decide⟩

/-- Claim C6: an insert call that did not attempt a flush leaves the buffer
with at most `batch_size - 1` rows, and an insert call can only leave the
buffer longer than `batch_size` if a flush was attempted during it. -/
theorem insert_buffer_bound {α ε : Type} (b : BatchInserter α) (s : Store α)
    (row : Row α) (res : Option ε) :
    ((@insertOp α ε b s row res).flushed = false →
      ((@insertOp α ε b s row res).inserter.rows.length : Int) ≤ b.batch_size - 1) ∧
    (((@insertOp α ε b s row res).inserter.rows.length : Int) > b.batch_size →
      (@insertOp α ε b s row res).flushed = true) := by
  by_cases hcond : ((b.rows ++ [row]).length : Int) ≥ b.batch_size
  · have h1 : (@insertOp α ε b s row res).flushed = true := by
      simp only [insertOp]
      rw [if_pos hcond]
    exact ⟨fun h2 => absurd (h1.symm.trans h2) (by simp), fun _ => h1⟩
  · have h1 : @insertOp α ε b s row res =
        { inserter := { b with rows := b.rows ++ [row] }, store := s,
          err := none, flushed := false } := by
      simp only [insertOp]
      rw [if_neg hcond]
    constructor
    · intro _
      rw [h1]
      simp only [List.length_append, List.length_cons, List.length_nil] at hcond ⊢
      push_cast at hcond ⊢
      omega
    · intro h2
      exfalso
      rw [h1] at h2
      simp only [List.length_append, List.length_cons, List.length_nil] at hcond h2
      push_cast at hcond h2
      omega

/-- Witness for C6: batch size 3, one insert into an empty buffer: no flush
is attempted and the buffer ends with 1 ≤ 3 - 1 rows. -/
theorem insert_buffer_bound_witness :
    ((@insertOp Int Unit (@mkBatchInserter Int "T" 3 false) emptyStore
        [("a", some 1)] none).inserter.rows.length : Int) ≤ 3 - 1 :=
  (insert_buffer_bound (@mkBatchInserter Int "T" 3 false) emptyStore
    [("a", some 1)] none).1 (by decide)

/-- Counterexample to C4 as stated: calling `flush` on an inserter with an
empty buffer still opens a transaction and still issues a bulk-insert
operation, so it does not perform zero store operations. -/
theorem flush_empty_counterexample :
    ¬ ((@flushOp Int Unit (@mkBatchInserter Int "T" 5 false) emptyStore
          none).store.txns = (@emptyStore Int).txns ∧
       (@flushOp Int Unit (@mkBatchInserter Int "T" 5 false) emptyStore
          none).store.ops = (@emptyStore Int).ops) := by
  decide

/-- Claim C4, amended: `flush` on an empty buffer opens one transaction and
issues one bulk insert of zero rows (it is not guarded); with a healthy
store it raises no error, commits nothing, and leaves the buffer empty. -/
theorem flush_empty_behavior {α ε : Type} (b : BatchInserter α) (s : Store α)
    (h : b.rows = []) :
    (flushOp b s (none : Option ε)).err = none ∧
    (flushOp b s (none : Option ε)).inserter.rows = [] ∧
    (flushOp b s (none : Option ε)).store.committed = s.committed ∧
    (flushOp b s (none : Option ε)).store.txns = s.txns + 1 ∧
    (flushOp b s (none : Option ε)).store.ops = s.ops + 1 := by
  refine ⟨rfl, rfl, ?_, rfl, rfl⟩
  simp [flushOp, h, normBuffer, padData]

/-- Witness for C4 (amended) on a freshly constructed inserter. -/
theorem flush_empty_behavior_witness :
    (@flushOp Int Unit (@mkBatchInserter Int "T" 5 false) emptyStore
      none).err = none ∧
    (@flushOp Int Unit (@mkBatchInserter Int "T" 5 false) emptyStore
      none).inserter.rows = [] ∧
    (@flushOp Int Unit (@mkBatchInserter Int "T" 5 false) emptyStore
      none).store.committed = (@emptyStore Int).committed ∧
    (@flushOp Int Unit (@mkBatchInserter Int "T" 5 false) emptyStore
      none).store.txns = (@emptyStore Int).txns + 1 ∧
    (@flushOp Int Unit (@mkBatchInserter Int "T" 5 false) emptyStore
      none).store.ops = (@emptyStore Int).ops + 1 :=
  flush_empty_behavior (@mkBatchInserter Int "T" 5 false) emptyStore rfl

/-- Counterexample to C5 as stated: constructing with batch size 0 does not
fail; the inserter is produced, and it then accepts a row without error
(committing it through an immediate flush). -/
theorem construct_nonpositive_counterexample :
    (@mkBatchInserter Int "T" 0 false).rows = [] ∧
    (@insertOp Int Unit (@mkBatchInserter Int "T" 0 false) emptyStore
      [("a", some 1)] none).err = none ∧
    (@insertOp Int Unit (@mkBatchInserter Int "T" 0 false) emptyStore
      [("a", some 1)] none).store.committed = [[("a", some 1)]] := by
  decide

/-- Claim C5, amended: `__init__` performs no batch-size validation at all:
construction succeeds for every batch size (positive, zero, or negative),
yielding an empty buffer and storing the parameters unchanged; no
ConfigurationError path exists in the code. -/
theorem mk_batch_inserter_total {α : Type} (M : String) (bs : Int) (pad : Bool) :
    (@mkBatchInserter α M bs pad).rows = [] ∧
    (@mkBatchInserter α M bs pad).batch_size = bs ∧
    (@mkBatchInserter α M bs pad).ModelType = M ∧
    (@mkBatchInserter α M bs pad).pad_data = pad :=
  ⟨rfl, rfl, rfl, rfl⟩

theorem getElem_append_offset {γ : Type} (l m : List γ) (i : Nat) :
    (l ++ m)[l.length + i]? = m[i]? := by
  rw [List.getElem?_append_right (by omega)]
  congr 1
  omega

/-- Claim C3: if the bulk insert inside `flush` raises, the error reaches
the caller unchanged, nothing is committed (full rollback), and the buffer
keeps one row per originally buffered row with all present values intact;
a subsequent successful `flush` then commits exactly one row per originally
buffered row, at the original position, with all present values intact. -/
theorem flush_failure_retry {α ε : Type} (b : BatchInserter α) (s : Store α)
    (e : ε) :
    (flushOp b s (some e)).err = some e ∧
    (flushOp b s (some e)).store.committed = s.committed ∧
    (flushOp b s (some e)).inserter.rows.length = b.rows.length ∧
    (flushOp (flushOp b s (some e)).inserter (flushOp b s (some e)).store
      (none : Option ε)).err = none ∧
    (flushOp (flushOp b s (some e)).inserter (flushOp b s (some e)).store
      (none : Option ε)).inserter.rows = [] ∧
    (flushOp (flushOp b s (some e)).inserter (flushOp b s (some e)).store
      (none : Option ε)).store.committed.length
        = s.committed.length + b.rows.length ∧
    ∀ (i : Nat) (r0 : Row α), b.rows[i]? = some r0 →
      (∃ ra, (flushOp b s (some e)).inserter.rows[i]? = some ra ∧
        ∀ k v, lookup k r0 = some v → lookup k ra = some v) ∧
      (∃ rb, (flushOp (flushOp b s (some e)).inserter
            (flushOp b s (some e)).store (none : Option ε)).store.committed[
              s.committed.length + i]? = some rb ∧
        ∀ k v, lookup k r0 = some v → lookup k rb = some v) := by
  refine ⟨rfl, rfl, ?_, rfl, rfl, ?_, ?_⟩
  · exact normBuffer_length b.pad_data b.rows
  · show (s.committed ++ normBuffer b.pad_data (normBuffer b.pad_data b.rows)).length
      = s.committed.length + b.rows.length
    rw [List.length_append, normBuffer_length, normBuffer_length]
  · intro i r0 h0
    obtain ⟨ra, hra, hpa⟩ := normBuffer_getElem_preserve b.pad_data b.rows i r0 h0
    obtain ⟨rb, hrb, hpb⟩ :=
      normBuffer_getElem_preserve b.pad_data (normBuffer b.pad_data b.rows) i ra hra
    refine ⟨⟨ra, hra, hpa⟩, ⟨rb, ?_, fun k v hv => hpb k v (hpa k v hv)⟩⟩
    show (s.committed ++
      normBuffer b.pad_data (normBuffer b.pad_data b.rows))[s.committed.length + i]?
        = some rb
    rw [getElem_append_offset]
    exact hrb

/-- Witness for C3: a two-row padded batch (rows `{a:1}` and `{a:2,b:5}`)
whose first flush fails; the retained first row and the row the retry
commits at position 0 both still map `a` to 1. -/
theorem flush_failure_retry_witness :
    (∃ ra, (flushOp
        ({ rows := [[("a", some 1)], [("a", some 2), ("b", some 5)]],
           ModelType := "T", batch_size := 10, pad_data := true } : BatchInserter Int)
        (@emptyStore Int) (some ())).inserter.rows[0]? = some ra ∧
      ∀ k v, lookup k [("a", (some 1 : Option Int))] = some v →
        lookup k ra = some v) ∧
    (∃ rb, (flushOp (flushOp
        ({ rows := [[("a", some 1)], [("a", some 2), ("b", some 5)]],
           ModelType := "T", batch_size := 10, pad_data := true } : BatchInserter Int)
        (@emptyStore Int) (some ())).inserter
        (flushOp
        ({ rows := [[("a", some 1)], [("a", some 2), ("b", some 5)]],
           ModelType := "T", batch_size := 10, pad_data := true } : BatchInserter Int)
        (@emptyStore Int) (some ())).store
        (none : Option Unit)).store.committed[
          (@emptyStore Int).committed.length + 0]? = some rb ∧
      ∀ k v, lookup k [("a", (some 1 : Option Int))] = some v →
        lookup k rb = some v) :=
  (flush_failure_retry
    ({ rows := [[("a", some 1)], [("a", some 2), ("b", some 5)]],
       ModelType := "T", batch_size := 10, pad_data := true } : BatchInserter Int)
    (@emptyStore Int) ()).2.2.2.2.2.2 0 [("a", (some 1 : Option Int))] (by decide)

/-- Claim C10: a batch size of 0 or negative is accepted at construction
without error, and an insert on the (empty-buffered) inserter immediately
triggers a flush whose batch contains just the submitted row, leaving the
inserter back in its freshly-constructed state (so the same holds for every
subsequent insert). -/
theorem nonpositive_batch_flushes_singleton {α ε : Type} (M : String)
    (bs : Int) (pad : Bool) (hbs : bs ≤ 0) (s : Store α) (row : Row α) :
    (@insertOp α ε (@mkBatchInserter α M bs pad) s row none).flushed = true ∧
    (@insertOp α ε (@mkBatchInserter α M bs pad) s row none).err = none ∧
    (@insertOp α ε (@mkBatchInserter α M bs pad) s row none).store.committed
      = s.committed ++ normBuffer pad [row] ∧
    (@insertOp α ε (@mkBatchInserter α M bs pad) s row none).inserter
      = @mkBatchInserter α M bs pad := by
  have hcond : ((((@mkBatchInserter α M bs pad).rows ++ [row]).length : Int) ≥
      (@mkBatchInserter α M bs pad).batch_size) := by
    show (([] ++ [row]).length : Int) ≥ bs
    simp only [List.nil_append, List.length_cons, List.length_nil]
    omega
  have hstep : @insertOp α ε (@mkBatchInserter α M bs pad) s row none =
      { inserter := @mkBatchInserter α M bs pad,
        store := { s with
          committed := s.committed ++ normBuffer pad [row],
          txns := s.txns + 1, ops := s.ops + 1 },
        err := none, flushed := true } := by
    simp only [insertOp]
    rw [if_pos hcond]
    simp only [flushOp]
    rfl
  rw [hstep]
  exact ⟨rfl, rfl, rfl, rfl⟩

/-- Witness for C10: batch size -3 with padding enabled; the single
submitted row `{a:7}` is flushed alone. -/
theorem nonpositive_batch_flushes_singleton_witness :
    (@insertOp Int Unit (@mkBatchInserter Int "T" (-3) true) emptyStore
      [("a", some 7)] none).flushed = true ∧
    (@insertOp Int Unit (@mkBatchInserter Int "T" (-3) true) emptyStore
      [("a", some 7)] none).err = none ∧
    (@insertOp Int Unit (@mkBatchInserter Int "T" (-3) true) emptyStore
      [("a", some 7)] none).store.committed
        = (@emptyStore Int).committed ++ normBuffer true [[("a", some 7)]] ∧
    (@insertOp Int Unit (@mkBatchInserter Int "T" (-3) true) emptyStore
      [("a", some 7)] none).inserter = @mkBatchInserter Int "T" (-3) true :=
  @nonpositive_batch_flushes_singleton Int Unit "T" (-3) true (by decide)
    emptyStore [("a", some 7)]

/-- A run of inserts that stays strictly below the batch-size threshold
performs no flush: the buffer accumulates the rows in submission order and
the store is untouched. -/
theorem runInsertsOk_no_flush {α : Type} :
    ∀ (L : List (Row α)) (b : BatchInserter α) (s : Store α),
      ((b.rows.length + L.length : Nat) : Int) < b.batch_size →
      runInsertsOk b s L = ({ b with rows := b.rows ++ L }, s) := by
  intro L
  induction L with
  | nil =>
      intro b s h
      simp [runInsertsOk]
  | cons row rest ih =>
      intro b s h
      have hcond : ¬ (((b.rows ++ [row]).length : Int) ≥ b.batch_size) := by
        simp only [List.length_append, List.length_cons, List.length_nil]
        simp only [List.length_cons] at h
        push_cast at h ⊢
        omega
      have hstep : @insertOp α Unit b s row none =
          { inserter := { b with rows := b.rows ++ [row] }, store := s,
            err := none, flushed := false } := by
        simp only [insertOp]
        rw [if_neg hcond]
      have hrun : runInsertsOk b s (row :: rest) =
          runInsertsOk { b with rows := b.rows ++ [row] } s rest := by
        simp only [runInsertsOk]
        rw [hstep]
      rw [hrun, ih]
      · simp
      · simp only [List.length_append, List.length_cons, List.length_nil]
        simp only [List.length_cons] at h
        push_cast at h ⊢
        omega

/-- Claim C8: FIFO order: as long as the threshold has not been reached the
buffer lists the rows in submission order with the store untouched;
normalization rewrites row contents in place without reordering positions;
and a successful explicit flush hands the store exactly the (normalized)
buffered rows, appended to the committed list in that order. -/
theorem fifo_order {α ε : Type} (M : String) (bs : Int) (pad : Bool)
    (L : List (Row α)) (s : Store α) (hlen : ((L.length : Nat) : Int) < bs) :
    (runInsertsOk (@mkBatchInserter α M bs pad) s L).1.rows = L ∧
    (runInsertsOk (@mkBatchInserter α M bs pad) s L).2 = s ∧
    (∀ (i : Nat), (padData L)[i]? = (L[i]?).map (padRow (fieldNames L))) ∧
    (flushOp (runInsertsOk (@mkBatchInserter α M bs pad) s L).1
      (runInsertsOk (@mkBatchInserter α M bs pad) s L).2
      (none : Option ε)).err = none ∧
    (flushOp (runInsertsOk (@mkBatchInserter α M bs pad) s L).1
      (runInsertsOk (@mkBatchInserter α M bs pad) s L).2
      (none : Option ε)).inserter.rows = [] ∧
    (flushOp (runInsertsOk (@mkBatchInserter α M bs pad) s L).1
      (runInsertsOk (@mkBatchInserter α M bs pad) s L).2
      (none : Option ε)).store.committed = s.committed ++ normBuffer pad L := by
  have hrun := runInsertsOk_no_flush L (@mkBatchInserter α M bs pad) s
    (by simpa [mkBatchInserter] using hlen)
  rw [hrun]
  exact ⟨by simp [mkBatchInserter], rfl, fun i => padData_getElem L i, rfl, rfl,
    by simp [flushOp, mkBatchInserter, normBuffer]⟩

/-- Witness for C8: two rows inserted with batch size 10 and padding on. -/
theorem fifo_order_witness :
    (runInsertsOk (@mkBatchInserter Int "T" 10 true) emptyStore
      [[("a", some 1)], [("b", some 2)]]).1.rows = [[("a", some 1)], [("b", some 2)]] ∧
    (runInsertsOk (@mkBatchInserter Int "T" 10 true) emptyStore
      [[("a", some 1)], [("b", some 2)]]).2 = emptyStore ∧
    (∀ (i : Nat), (padData [[("a", (some 1 : Option Int))], [("b", some 2)]])[i]?
      = (([[("a", (some 1 : Option Int))], [("b", some 2)]] : List (Row Int))[i]?).map
          (padRow (fieldNames [[("a", (some 1 : Option Int))], [("b", some 2)]]))) ∧
    (flushOp (runInsertsOk (@mkBatchInserter Int "T" 10 true) emptyStore
      [[("a", some 1)], [("b", some 2)]]).1
      (runInsertsOk (@mkBatchInserter Int "T" 10 true) emptyStore
      [[("a", some 1)], [("b", some 2)]]).2
      (none : Option Unit)).err = none ∧
    (flushOp (runInsertsOk (@mkBatchInserter Int "T" 10 true) emptyStore
      [[("a", some 1)], [("b", some 2)]]).1
      (runInsertsOk (@mkBatchInserter Int "T" 10 true) emptyStore
      [[("a", some 1)], [("b", some 2)]]).2
      (none : Option Unit)).inserter.rows = [] ∧
    (flushOp (runInsertsOk (@mkBatchInserter Int "T" 10 true) emptyStore
      [[("a", some 1)], [("b", some 2)]]).1
      (runInsertsOk (@mkBatchInserter Int "T" 10 true) emptyStore
      [[("a", some 1)], [("b", some 2)]]).2
      (none : Option Unit)).store.committed
        = (@emptyStore Int).committed ++ normBuffer true [[("a", some 1)], [("b", some 2)]] :=
  @fifo_order Int Unit "T" 10 true [[("a", some 1)], [("b", some 2)]]
    emptyStore (by decide)

/-- A heap-level flush only ever appends freshly allocated dicts to the
heap; existing cells are untouched. -/
theorem flushSys_heap_extend {α ε : Type} (st : Sys α) (res : Option ε) :
    ∃ ext, (flushSys st res).heap = st.heap ++ ext := by
  simp only [flushSys]
  by_cases hp : st.pad_data = true
  · rw [if_pos hp]
    cases res
    · exact ⟨_, rfl⟩
    · exact ⟨_, rfl⟩
  · rw [if_neg hp]
    cases res
    · exact ⟨[], (List.append_nil _).symm⟩
    · exact ⟨[], (List.append_nil _).symm⟩

/-- One call on the inserter only ever appends to the heap. -/
theorem stepSys_heap_extend {α ε : Type} (st : Sys α) (ev : Event ε) :
    ∃ ext, (stepSys st ev).heap = st.heap ++ ext := by
  cases ev with
  | ins a res =>
      simp only [stepSys]
      by_cases hc : ((({ st with buffer := st.buffer ++ [a] } : Sys α).buffer.length : Int)
          ≥ st.batch_size)
      · rw [if_pos hc]
        obtain ⟨ext, he⟩ :=
          flushSys_heap_extend { st with buffer := st.buffer ++ [a] } res
        exact ⟨ext, he⟩
      · rw [if_neg hc]
        exact ⟨[], (List.append_nil _).symm⟩
  | flush res => exact flushSys_heap_extend st res

/-- Claim C9: the inserter never mutates a caller-supplied row dict: after
any sequence of insert and flush calls (with any store outcomes), every
dict object that existed in the heap beforehand holds exactly its original
contents; normalization only allocates fresh dicts and repoints buffer
slots. -/
theorem no_mutation_of_caller_rows {α ε : Type} (evs : List (Event ε))
    (st : Sys α) (i : Nat) (hi : i < st.heap.length) :
    (runSys st evs).heap[i]? = st.heap[i]? := by
  induction evs generalizing st with
  | nil => rfl
  | cons ev rest ih =>
      obtain ⟨ext, he⟩ := stepSys_heap_extend st ev
      have h1 : (stepSys st ev).heap[i]? = st.heap[i]? := by
        rw [he]
        exact List.getElem?_append_left hi
      have hi2 : i < (stepSys st ev).heap.length := by
        rw [he, List.length_append]
        omega
      calc (runSys st (ev :: rest)).heap[i]?
          = (runSys (stepSys st ev) rest).heap[i]? := rfl
        _ = (stepSys st ev).heap[i]? := ih (stepSys st ev) hi2
        _ = st.heap[i]? := h1

/-- Witness for C9: two caller dicts, a session that flushes successfully,
fails a flush, and flushes again, with padding on and batch size 1; the
first caller dict is unchanged. -/
theorem no_mutation_of_caller_rows_witness :
    (runSys ({ heap := [[("a", some 1)], [("b", some 2)]], buffer := [],
               batch_size := 1, pad_data := true } : Sys Int)
      [Event.ins 0 (none : Option Unit), Event.ins 1 (some ()),
        Event.flush none]).heap[0]?
      = ({ heap := [[("a", some 1)], [("b", some 2)]], buffer := [],
           batch_size := 1, pad_data := true } : Sys Int).heap[0]? :=
  no_mutation_of_caller_rows
    [Event.ins 0 (none : Option Unit), Event.ins 1 (some ()), Event.flush none]
    ({ heap := [[("a", some 1)], [("b", some 2)]], buffer := [],
       batch_size := 1, pad_data := true } : Sys Int) 0 (by decide)
